import Mathlib

/-!
Shallow embedding of the chat-client synchronization layer
(source: `src/unnamed/part_000`, the `Chat` page component, and
`src/unnamed/part_003`, the `MessageBubble` component).

Conventions of the embedding:
* A JS `Message` object (see `src/types.ts`) becomes the structure `Message`.
  Optional fields (`_id?`, `status?`, ...) become `Option`-valued fields; an
  absent key is `none`.  The `_id` field is called `mid` here.
* ISO timestamp strings are modelled directly as epoch milliseconds (`Int`);
  the source only ever compares them through `new Date(x).getTime()`.
* A JS object spread `\x7b ...a, ...b \x7d` keeps `a`'s value exactly for the
  keys absent from `b`; for `Option`-valued fields this is `jsOverlay b.f a.f`.
* React `setMessages(prev => ...)` updaters become pure functions
  `List Message → List Message`; handlers that also emit socket events or
  toasts return an `ActionResult` that records the emissions.
-/

namespace ChatClient

inductive MessageType
  | text
  | image
  | voice
deriving DecidableEq, Repr

inductive DeliveryStatus
  | sending
  | sent
  | error
deriving DecidableEq, Repr

/-- One element of `deletedBy` (`\x7b userId, deletedAt \x7d` in `src/types.ts`). -/
structure DeleteEntry where
  userId : String
  deletedAt : Int
deriving DecidableEq, Repr

/-- The `Message` record of `src/types.ts` (media-independent fields kept). -/
structure Message where
  mid : Option String
  fromUserId : String
  toUserId : String
  content : String
  messageType : MessageType
  imageUrl : Option String := none
  voiceUrl : Option String := none
  blobUrl : Option String := none
  voiceDuration : Option Int := none
  timestamp : Int
  status : Option DeliveryStatus := none
  isRead : Option Bool := none
  isRecalled : Option Bool := none
  deletedBy : Option (List DeleteEntry) := none
deriving DecidableEq, Repr

/-- JS object-spread overlay for an optional field: the incoming value wins
when the key is present, otherwise the existing value is kept. -/
def jsOverlay {α : Type} (incoming fallback : Option α) : Option α :=
  match incoming with
  | some v => some v
  | none => fallback

/-- `(m._id?.length || 0)` from the source: length of the identity, with
`undefined` reading as `0`. -/
def idLen : Option String → Nat
  | none => 0
  | some s => s.length

/-- JS `Array.prototype.findIndex`, as an `Option Nat`. -/
def findIndex {α : Type} (p : α → Bool) : List α → Option Nat
  | [] => none
  | x :: xs => if p x then some 0 else (findIndex p xs).map (· + 1)

/-- The candidate test of `handleReceiveMessage` (part_000 lines 108-112):
same `content`, same `messageType`, and a placeholder identity. -/
def candMatch (msg : Message) (m : Message) : Bool :=
  m.content == msg.content && m.messageType == msg.messageType && idLen m.mid < 20

/-- The in-place merge of `handleReceiveMessage` (part_000 line 120):
`\x7b ...optimisticMsg, ...msg, status: sent, _id: msg._id \x7d`. -/
def mergeEcho (optimisticMsg msg : Message) : Message :=
  { mid := msg.mid
    fromUserId := msg.fromUserId
    toUserId := msg.toUserId
    content := msg.content
    messageType := msg.messageType
    imageUrl := jsOverlay msg.imageUrl optimisticMsg.imageUrl
    voiceUrl := jsOverlay msg.voiceUrl optimisticMsg.voiceUrl
    blobUrl := jsOverlay msg.blobUrl optimisticMsg.blobUrl
    voiceDuration := jsOverlay msg.voiceDuration optimisticMsg.voiceDuration
    timestamp := msg.timestamp
    status := some .sent
    isRead := jsOverlay msg.isRead optimisticMsg.isRead
    isRecalled := jsOverlay msg.isRecalled optimisticMsg.isRecalled
    deletedBy := jsOverlay msg.deletedBy optimisticMsg.deletedBy }

/-- The `setMessages` updater of `handleReceiveMessage` (part_000 lines
104-126).  `u` is the local user id.  The surrounding active-conversation
filter and read-receipt emission are outside this updater. -/
def handleReceiveMessage (u : String) (msg : Message) (prev : List Message) :
    List Message :=
  if prev.any (fun m => m.mid == msg.mid) then prev
  else if msg.fromUserId == u then
    match findIndex (candMatch msg) prev with
    | some i =>
      match prev[i]? with
      | some optimisticMsg =>
        if (optimisticMsg.timestamp - msg.timestamp).natAbs < 5000 then
          prev.set i (mergeEcho optimisticMsg msg)
        else prev ++ [msg]
      | none => prev ++ [msg]
    | none => prev ++ [msg]
  else prev ++ [msg]

/-- The per-entry test of `handleMessageSent` (part_000 lines 137-139):
local sender, equal content, placeholder identity, timestamps within 5000 ms. -/
def sentCond (u : String) (data : Message) (msg : Message) : Bool :=
  msg.fromUserId == u && msg.content == data.content && idLen msg.mid < 20 &&
    (data.timestamp - msg.timestamp).natAbs < 5000

/-- The rewrite of `handleMessageSent` (part_000 line 140):
`\x7b ...msg, _id: data._id, timestamp: data.timestamp, status: sent \x7d`. -/
def sentRewrite (data msg : Message) : Message :=
  { msg with mid := data.mid, timestamp := data.timestamp, status := some .sent }

/-- The `setMessages` updater of `handleMessageSent` (part_000 lines 135-145). -/
def handleMessageSent (u : String) (data : Message) (prev : List Message) :
    List Message :=
  prev.map (fun msg => if sentCond u data msg then sentRewrite data msg else msg)

/-- The `setMessages` updater of `handleMessageRecalled` (part_000 lines 147-152). -/
def handleMessageRecalled (messageId : String) (prev : List Message) :
    List Message :=
  prev.map (fun msg =>
    if msg.mid == some messageId then { msg with isRecalled := some true } else msg)

/-- The `setMessages` updater of `handleMessageDeleted` (part_000 lines 154-160):
unconditionally appends `\x7b userId, deletedAt \x7d` to `msg.deletedBy || []`. -/
def handleMessageDeleted (messageId deletedByUser : String) (deletedAt : Int)
    (prev : List Message) : List Message :=
  prev.map (fun msg =>
    if msg.mid == some messageId then
      { msg with deletedBy := some (msg.deletedBy.getD [] ++ [⟨deletedByUser, deletedAt⟩]) }
    else msg)

/-- The `setMessages` updater of `handleMessagesRead` (part_000 lines 177-181). -/
def handleMessagesRead (u byUserId : String) (activePeer : Option String)
    (prev : List Message) : List Message :=
  if activePeer == some byUserId then
    prev.map (fun m => if m.fromUserId == u then { m with isRead := some true } else m)
  else prev

/-- Outbound socket events (`socket.emit(...)` calls in part_000). -/
inductive NetEvent
  | typing (fromUserId toUserId : String)
  | stopTyping (fromUserId toUserId : String)
  | sendMsg (m : Message)
  | markAsRead (userId friendUserId : String)
  | recallMsg (messageId userId : String) (targetUserId : Option String)
  | deleteMsg (messageId userId : String)
deriving DecidableEq, Repr

/-- User-visible toasts issued by the handlers modelled here. -/
inductive Notice
  | failed
  | stillSyncing
  | youRecalled
  | deleted
deriving DecidableEq, Repr

/-- Result of a local action: emitted socket events, the resulting log, and
the toasts shown. -/
structure ActionResult where
  emits : List NetEvent
  log : List Message
  notices : List Notice
deriving DecidableEq, Repr

/-- `handleRecallMessage` (part_000 lines 394-412).  `hasSocket` models the
`socket` state variable being non-null; `!messageId` is the empty-string
check. -/
def handleRecallMessage (hasSocket : Bool) (messageId u : String)
    (activePeer : Option String) (prev : List Message) : ActionResult :=
  if !hasSocket || messageId.isEmpty then
    { emits := [], log := prev, notices := [.failed] }
  else if messageId.length < 20 then
    { emits := [], log := prev, notices := [.stillSyncing] }
  else
    { emits := [.recallMsg messageId u activePeer]
      log := prev.map (fun msg =>
        if msg.mid == some messageId then { msg with isRecalled := some true } else msg)
      notices := [.youRecalled] }

/-- `handleDeleteMessage` (part_000 lines 414-438).  The empty-identity branch
returns silently, with no toast. -/
def handleDeleteMessage (hasSocket : Bool) (messageId u : String) (now : Int)
    (prev : List Message) : ActionResult :=
  if !hasSocket || messageId.isEmpty then
    { emits := [], log := prev, notices := [] }
  else if messageId.length < 20 then
    { emits := [], log := prev, notices := [.stillSyncing] }
  else
    { emits := [.deleteMsg messageId u]
      log := prev.map (fun msg =>
        if msg.mid == some messageId then
          { msg with deletedBy := some (msg.deletedBy.getD [] ++ [⟨u, now⟩]) }
        else msg)
      notices := [.deleted] }

/-- The guard `!inputText.trim()` of `sendMessage` (part_000 line 367): the
trimmed text is empty exactly when every character is whitespace. -/
def trimIsEmpty (s : String) : Bool :=
  s.data.all (fun c => c.isWhitespace)

/-- The optimistic text record built by `sendMessage` (part_000 lines 376-384).
Note the source sets `status: sent` on it, not `sending`. -/
def textMessageData (u peer content : String) (timestamp : Int)
    (tempId : String) : Message :=
  { mid := some tempId
    fromUserId := u
    toUserId := peer
    content := content
    messageType := .text
    timestamp := timestamp
    status := some .sent }

/-- `sendMessage` (part_000 lines 366-392).  `tempId` stands for the
`Math.random().toString(36).substr(2, 9)` placeholder identity and
`timestamp` for `new Date().toISOString()`. -/
def sendMessage (hasSocket : Bool) (inputText u : String)
    (activePeer : Option String) (timestamp : Int) (tempId : String)
    (prev : List Message) : ActionResult :=
  match activePeer with
  | none => { emits := [], log := prev, notices := [] }
  | some peer =>
    if trimIsEmpty inputText || !hasSocket then
      { emits := [], log := prev, notices := [] }
    else
      let msgData := textMessageData u peer inputText timestamp tempId
      { emits := [.stopTyping u peer, .sendMsg msgData]
        log := prev ++ [msgData]
        notices := [] }

/-- The optimistic voice record built by `handleVoiceRecorded`
(part_000 lines 479-489): placeholder identity, `status: sending`. -/
def voiceOptimistic (u peer tempId blobRef : String) (duration timestamp : Int) :
    Message :=
  { mid := some tempId
    fromUserId := u
    toUserId := peer
    content := "[Voice]"
    messageType := .voice
    blobUrl := some blobRef
    voiceDuration := some duration
    timestamp := timestamp
    status := some .sending }

/-- The optimistic append of `handleVoiceRecorded` (part_000 line 491). -/
def handleVoiceRecorded (u peer tempId blobRef : String)
    (duration timestamp : Int) (prev : List Message) : List Message :=
  prev ++ [voiceOptimistic u peer tempId blobRef duration timestamp]

/-- The upload-success updater of `handleVoiceRecorded` (part_000 lines
518-534): `\x7b ...m, ...realMsgData \x7d` where `realMsgData` restates every
field of the optimistic record plus `voiceUrl` and `status: sent`. -/
def voiceUploadSuccess (opt : Message) (voiceUrl : String) (prev : List Message) :
    List Message :=
  prev.map (fun m =>
    if m.mid == opt.mid then
      { m with
        mid := opt.mid
        fromUserId := opt.fromUserId
        toUserId := opt.toUserId
        content := opt.content
        messageType := opt.messageType
        blobUrl := opt.blobUrl
        voiceDuration := opt.voiceDuration
        timestamp := opt.timestamp
        voiceUrl := some voiceUrl
        status := some .sent }
    else m)

/-- The upload-failure updater of `handleVoiceRecorded` (part_000 line 538). -/
def voiceUploadFailure (tempId : String) (prev : List Message) : List Message :=
  prev.map (fun m =>
    if m.mid == some tempId then { m with status := some .error } else m)

/-- Receiver-side typing state: the display flag and the absolute firing time
of the pending stale-guard timeout, when armed. -/
structure TypingState where
  isTyping : Bool
  receiverDeadline : Option Int
deriving DecidableEq, Repr

/-- Socket events feeding the receiver-side typing guard, plus the expiry of
its own timeout.  `now` is the arrival time in epoch milliseconds. -/
inductive TypingEvent
  | userTyping (fromUserId : String) (now : Int)
  | userStopTyping (fromUserId : String)
  | timerFire
deriving DecidableEq, Repr

/-- The `userTyping` / `userStopTyping` handlers (part_000 lines 194-212) and
the 5000 ms timeout body (lines 201-203), as one step function.  A
`setTimeout(..., 5000)` armed at `now` is modelled as an absolute deadline
`now + 5000`; re-arming first clears the old timer, so at most one deadline
is pending. -/
def typingStep (activePeer : Option String) (s : TypingState) :
    TypingEvent → TypingState
  | .userTyping fromId now =>
    if activePeer == some fromId then
      { isTyping := true, receiverDeadline := some (now + 5000) }
    else s
  | .userStopTyping fromId =>
    if activePeer == some fromId then
      { isTyping := false, receiverDeadline := none }
    else s
  | .timerFire => { isTyping := false, receiverDeadline := none }

/-- Folding a sequence of typing events. -/
def typingRun (activePeer : Option String) (s : TypingState)
    (evs : List TypingEvent) : TypingState :=
  evs.foldl (typingStep activePeer) s

/-- Whether an event can affect the guard for active peer `p`: a typing or
stop-typing event from `p`, or the timeout firing. -/
def eventTouches (p : String) : TypingEvent → Bool
  | .userTyping q _ => q == p
  | .userStopTyping q => q == p
  | .timerFire => true

/-- The synchronous effects of `selectChat` (part_000 lines 290-328) plus the
post-fetch log replacement and read-receipt: emitted events, reset typing
state, and the new session state. -/
structure SelectChatResult where
  emits : List NetEvent
  isTyping : Bool
  senderDeadline : Option Int
  receiverDeadline : Option Int
  activePeer : Option String
  log : List Message
  inputText : String
deriving DecidableEq, Repr

/-- `selectChat` (part_000 lines 290-328): cancel both timers, notify the old
peer with `stopTyping`, clear flag and input, switch to `newPeer`, and on a
successful history fetch install the history and emit `markAsRead`. -/
def selectChat (hasSocket : Bool) (u : String) (oldActivePeer : Option String)
    (newPeer : String) (history : List Message) (fetchOk : Bool) :
    SelectChatResult :=
  let stopEmits :=
    match oldActivePeer with
    | some a => if hasSocket then [NetEvent.stopTyping u a] else []
    | none => []
  let readEmits := if fetchOk && hasSocket then [NetEvent.markAsRead u newPeer] else []
  { emits := stopEmits ++ readEmits
    isTyping := false
    senderDeadline := none
    receiverDeadline := none
    activePeer := some newPeer
    log := if fetchOk then history else []
    inputText := "" }

/-- Whether an outbound event is part of the typing protocol. -/
def typingKind : NetEvent → Bool
  | .typing _ _ => true
  | .stopTyping _ _ => true
  | _ => false

/-- The recipient of an outbound event. -/
def eventTo : NetEvent → Option String
  | .typing _ toId => some toId
  | .stopTyping _ toId => some toId
  | .sendMsg m => some m.toUserId
  | .markAsRead _ friendId => some friendId
  | .recallMsg _ _ target => target
  | .deleteMsg _ _ => none

/-- What `MessageBubble` renders (part_003 lines 640-648): an
`if (message.isRecalled)` guard returns the placeholder notice before any
content-bearing markup. -/
inductive RenderOutput
  | recalledNotice
  | contentBubble
deriving DecidableEq, Repr

/-- The top-level rendering decision of `MessageBubble`. -/
def messageBubbleRender (m : Message) : RenderOutput :=
  if m.isRecalled == some true then .recalledNotice else .contentBubble

/-! ### Concrete records used by witnesses and counterexamples -/

/-- A locally-created text placeholder (9-character identity) from `"me"`. -/
def exPh1 : Message :=
  { mid := some "p1abcdefg", fromUserId := "me", toUserId := "peer",
    content := "hi", messageType := .text, timestamp := 0, status := some .sent }

/-- A second identical placeholder, sent 10000 ms later. -/
def exPh2far : Message :=
  { mid := some "p2abcdefg", fromUserId := "me", toUserId := "peer",
    content := "hi", messageType := .text, timestamp := 10000, status := some .sent }

/-- A second identical placeholder, sent 1 ms later. -/
def exPh2near : Message :=
  { mid := some "p2abcdefg", fromUserId := "me", toUserId := "peer",
    content := "hi", messageType := .text, timestamp := 1, status := some .sent }

/-- A server echo with a 24-character durable identity, timestamp 10000. -/
def exEcho10k : Message :=
  { mid := some "srv0123456789abcdef01234", fromUserId := "me", toUserId := "peer",
    content := "hi", messageType := .text, timestamp := 10000 }

/-- A server confirmation with a durable identity, timestamp 0. -/
def exConf0 : Message :=
  { mid := some "srv0123456789abcdef01234", fromUserId := "me", toUserId := "peer",
    content := "hi", messageType := .text, timestamp := 0 }

/-! ### Helper lemmas -/

/-- `findIndex` only returns positions inside the list. -/
theorem findIndex_lt_length {α : Type} (p : α → Bool) :
    ∀ (l : List α) (i : Nat), findIndex p l = some i → i < l.length := by
  intro l
  induction l with
  | nil => intro i h; simp [findIndex] at h
  | cons x xs ih =>
    intro i h
    by_cases hx : p x
    · simp [findIndex, hx] at h
      simp only [List.length_cons]
      omega
    · simp [findIndex, hx] at h
      obtain ⟨j, hj, hji⟩ := h
      have := ih j hj
      simp only [List.length_cons]
      omega

/-- `findIndex` returns the first position whose element satisfies the test. -/
theorem findIndex_earliest {α : Type} (p : α → Bool) :
    ∀ (l : List α) (i : Nat), findIndex p l = some i →
      ∀ j, j < i → ∀ x, l[j]? = some x → p x = false := by
  intro l
  induction l with
  | nil => intro i h; simp [findIndex] at h
  | cons y ys ih =>
    intro i h j hj x hx
    by_cases hy : p y
    · simp [findIndex, hy] at h
      omega
    · simp [findIndex, hy] at h
      obtain ⟨k, hk, hki⟩ := h
      cases j with
      | zero =>
        simp at hx
        rw [hx] at hy
        simp [hy]
      | succ j0 =>
        simp at hx
        exact ih k hk j0 (by omega) x hx

/-- If the log already holds the incoming identity, `handleReceiveMessage`
returns it unchanged. -/
theorem receive_of_any (u : String) (msg : Message) (prev : List Message)
    (h : prev.any (fun m => m.mid == msg.mid) = true) :
    handleReceiveMessage u msg prev = prev := by
  unfold handleReceiveMessage
  rw [h]
  simp

/-- After any application of `handleReceiveMessage`, the log holds an entry
with the incoming identity. -/
theorem receive_any_mid (u : String) (msg : Message) (prev : List Message) :
    (handleReceiveMessage u msg prev).any (fun m => m.mid == msg.mid) = true := by
  unfold handleReceiveMessage
  split
  · assumption
  · split
    · rcases hfind : findIndex (candMatch msg) prev with _ | i
      · simp [hfind, List.any_append]
      · rcases hget : prev[i]? with _ | P
        · simp [hfind, hget, List.any_append]
        · simp only [hfind, hget]
          split
          · apply List.any_eq_true.mpr
            have hi : i < prev.length := (List.getElem?_eq_some.mp hget).1
            exact ⟨mergeEcho P msg, List.mem_set prev i hi (mergeEcho P msg),
              by simp [mergeEcho]⟩
          · simp [List.any_append]
    · simp [List.any_append]

/-! ### Claims -/

/-- C10: `handleMessageSent` preserves the log length, rewrites exactly the
entries whose sender is the local user, whose identity is a placeholder
(length < 20), whose content equals the confirmation's, and whose timestamp
is within 5000 ms of the confirmation's; every other entry is returned
unchanged. -/
theorem message_sent_frame (u : String) (data : Message) (prev : List Message) :
    (handleMessageSent u data prev).length = prev.length
    ∧ (∀ (i : Nat) (m : Message), prev[i]? = some m → sentCond u data m = false →
        (handleMessageSent u data prev)[i]? = some m)
    ∧ (∀ (i : Nat) (m : Message), prev[i]? = some m → sentCond u data m = true →
        (handleMessageSent u data prev)[i]? = some (sentRewrite data m)) := by
  refine ⟨by simp [handleMessageSent], ?_, ?_⟩ <;>
    intro i m hget hc <;>
    simp [handleMessageSent, List.getElem?_map, hget, hc]

/-- Witness for C10 on a concrete log: the matching placeholder is rewritten
and an unrelated entry is untouched. -/
theorem message_sent_frame_witness :
    (handleMessageSent "me" exConf0 [exPh1, exEcho10k])[0]?
        = some (sentRewrite exConf0 exPh1)
    ∧ (handleMessageSent "me" exConf0 [exPh1, exEcho10k])[1]? = some exEcho10k := by
  have h := message_sent_frame "me" exConf0 [exPh1, exEcho10k]
  exact ⟨h.2.2 0 exPh1 rfl (by decide), h.2.1 1 exEcho10k rfl (by decide)⟩

/-- C4 counterexample: the empty string is an identity of length < 20, yet
delete rejects it silently (no notice at all) and recall shows the generic
failure notice, not the still-syncing one. -/
theorem recall_delete_placeholder_counterexample :
    "".length < 20
    ∧ (handleDeleteMessage true "" "me" 0 []).notices = []
    ∧ (handleRecallMessage true "" "me" none []).notices = [Notice.failed] := by
  decide

/-- C4 (amended): for every nonempty identity of length < 20, recall and
delete are rejected locally with the still-syncing notice, the log is left
unchanged, and no network event is emitted.  (The empty identity is also
rejected with no network event, but recall shows a generic failure notice and
delete shows none.) -/
theorem recall_delete_placeholder_rejected (messageId u : String)
    (activePeer : Option String) (prev : List Message) (now : Int)
    (hne : messageId.isEmpty = false) (hlen : messageId.length < 20) :
    handleRecallMessage true messageId u activePeer prev
      = { emits := [], log := prev, notices := [.stillSyncing] }
    ∧ handleDeleteMessage true messageId u now prev
      = { emits := [], log := prev, notices := [.stillSyncing] } := by
  unfold handleRecallMessage handleDeleteMessage
  simp [hne, hlen]

/-- Witness for C4 at the spec's own scenario identity `"x7f3a2b1c"`. -/
theorem recall_delete_placeholder_rejected_witness :
    handleRecallMessage true "x7f3a2b1c" "me" none [exPh1]
      = { emits := [], log := [exPh1], notices := [.stillSyncing] }
    ∧ handleDeleteMessage true "x7f3a2b1c" "me" 0 [exPh1]
      = { emits := [], log := [exPh1], notices := [.stillSyncing] } :=
  recall_delete_placeholder_rejected "x7f3a2b1c" "me" none [exPh1] 0
    (by decide) (by decide)

/-- Events that do not touch the guard for peer `p` leave the state fixed. -/
theorem typingRun_untouched (p : String) (evs : List TypingEvent)
    (hq : ∀ e ∈ evs, eventTouches p e = false) :
    ∀ s : TypingState, typingRun (some p) s evs = s := by
  induction evs with
  | nil => intro s; rfl
  | cons e es ih =>
    intro s
    have he : eventTouches p e = false := hq e (by simp)
    have hes : ∀ e2 ∈ es, eventTouches p e2 = false := fun e2 h2 => hq e2 (by simp [h2])
    have hstep : typingStep (some p) s e = s := by
      cases e with
      | userTyping q now =>
        simp [eventTouches] at he
        simp [typingStep, he]
        intro hpq
        exact absurd hpq.symm he
      | userStopTyping q =>
        simp [eventTouches] at he
        simp [typingStep, he]
        intro hpq
        exact absurd hpq.symm he
      | timerFire => simp [eventTouches] at he
    calc typingRun (some p) s (e :: es)
        = typingRun (some p) (typingStep (some p) s e) es := rfl
      _ = typingStep (some p) s e := ih hes _
      _ = s := hstep

/-- C7: a `typing` event from the active peer sets the display flag and arms
the 5000 ms stale timer; if no event touching the guard arrives before the
timer fires, the flag autonomously becomes false at expiry; and each new
`typing` event re-arms the deadline from its own arrival time. -/
theorem typing_expiry_guard (p : String) (t t2 : Int) (s : TypingState)
    (evs : List TypingEvent) (hq : ∀ e ∈ evs, eventTouches p e = false) :
    (typingStep (some p) s (.userTyping p t)).isTyping = true
    ∧ (typingStep (some p) s (.userTyping p t)).receiverDeadline = some (t + 5000)
    ∧ typingRun (some p) (typingStep (some p) s (.userTyping p t)) evs
        = typingStep (some p) s (.userTyping p t)
    ∧ (typingStep (some p)
        (typingRun (some p) (typingStep (some p) s (.userTyping p t)) evs)
        .timerFire).isTyping = false
    ∧ (typingStep (some p) (typingStep (some p) s (.userTyping p t))
        (.userTyping p t2)).receiverDeadline = some (t2 + 5000) := by
  refine ⟨by simp [typingStep], by simp [typingStep], typingRun_untouched p evs hq _,
    ?_, by simp [typingStep]⟩
  rw [typingRun_untouched p evs hq]
  simp [typingStep]

/-- Witness for C7: a typing event from peer `"a"` at time 0, an unrelated
peer-`"b"` event in between, then the timer fires. -/
theorem typing_expiry_guard_witness :
    (typingStep (some "a") ⟨false, none⟩ (.userTyping "a" 0)).isTyping = true
    ∧ (typingStep (some "a") ⟨false, none⟩ (.userTyping "a" 0)).receiverDeadline
        = some 5000
    ∧ typingRun (some "a") (typingStep (some "a") ⟨false, none⟩ (.userTyping "a" 0))
        [.userTyping "b" 100] = typingStep (some "a") ⟨false, none⟩ (.userTyping "a" 0)
    ∧ (typingStep (some "a")
        (typingRun (some "a") (typingStep (some "a") ⟨false, none⟩ (.userTyping "a" 0))
          [.userTyping "b" 100]) .timerFire).isTyping = false
    ∧ (typingStep (some "a") (typingStep (some "a") ⟨false, none⟩ (.userTyping "a" 0))
        (.userTyping "a" 7)).receiverDeadline = some 5007 :=
  typing_expiry_guard "a" 0 7 ⟨false, none⟩ [.userTyping "b" 100] (by decide)

/-- C9: switching the active conversation from peer `a` to peer `b` cancels
both timers, clears the typing flag, emits exactly one typing-protocol event
— a final `stopTyping` addressed to `a` — and emits no typing-protocol event
addressed to `b`. -/
theorem select_chat_typing_scoped (u a b : String) (history : List Message)
    (ok : Bool) (hab : a ≠ b) :
    (selectChat true u (some a) b history ok).emits.filter typingKind
      = [.stopTyping u a]
    ∧ (selectChat true u (some a) b history ok).emits.filter
        (fun e => typingKind e && (eventTo e == some b)) = []
    ∧ (selectChat true u (some a) b history ok).isTyping = false
    ∧ (selectChat true u (some a) b history ok).senderDeadline = none
    ∧ (selectChat true u (some a) b history ok).receiverDeadline = none := by
  cases ok <;> simp [selectChat, typingKind, eventTo, hab]

/-- Witness for C9: switching from `"a"` to `"b"`. -/
theorem select_chat_typing_scoped_witness :
    (selectChat true "me" (some "a") "b" [] true).emits.filter typingKind
      = [.stopTyping "me" "a"]
    ∧ (selectChat true "me" (some "a") "b" [] true).emits.filter
        (fun e => typingKind e && (eventTo e == some "b")) = []
    ∧ (selectChat true "me" (some "a") "b" [] true).isTyping = false
    ∧ (selectChat true "me" (some "a") "b" [] true).senderDeadline = none
    ∧ (selectChat true "me" (some "a") "b" [] true).receiverDeadline = none :=
  select_chat_typing_scoped "me" "a" "b" [] true (by decide)

/-- C3: if an entry with the incoming identity already exists the event is a
no-op, and a second application of the same message event never changes the
log (in particular, its length). -/
theorem receive_idempotent (u : String) (msg : Message) (prev : List Message) :
    ((∃ m ∈ prev, m.mid = msg.mid) → handleReceiveMessage u msg prev = prev)
    ∧ handleReceiveMessage u msg (handleReceiveMessage u msg prev)
        = handleReceiveMessage u msg prev
    ∧ (handleReceiveMessage u msg (handleReceiveMessage u msg prev)).length
        = (handleReceiveMessage u msg prev).length := by
  have h2 : handleReceiveMessage u msg (handleReceiveMessage u msg prev)
      = handleReceiveMessage u msg prev :=
    receive_of_any u msg _ (receive_any_mid u msg prev)
  refine ⟨?_, h2, by rw [h2]⟩
  rintro ⟨m, hm, hmid⟩
  apply receive_of_any
  exact List.any_eq_true.mpr ⟨m, hm, by simp [hmid]⟩

/-- Witness for C3: re-delivering `exConf0` to a log that already contains it
leaves the log unchanged, and a double application equals a single one. -/
theorem receive_idempotent_witness :
    handleReceiveMessage "me" exConf0 [exConf0] = [exConf0]
    ∧ handleReceiveMessage "me" exConf0 (handleReceiveMessage "me" exConf0 [exPh2far])
        = handleReceiveMessage "me" exConf0 [exPh2far] := by
  have h1 := receive_idempotent "me" exConf0 [exConf0]
  have h2 := receive_idempotent "me" exConf0 [exPh2far]
  exact ⟨h1.1 ⟨exConf0, by simp, rfl⟩, h2.2.1⟩

/-- C1 counterexample: `exPh2far` is a placeholder with the incoming echo's
content and type, and its timestamp is within 5000 ms of the echo's; yet the
merge appends (length 3) instead of replacing it, because the search stops at
the earliest content/type match (`exPh1`), whose timestamp is out of window. -/
theorem receive_merge_window_counterexample :
    exEcho10k.fromUserId = "me"
    ∧ idLen exPh2far.mid < 20
    ∧ exPh2far.content = exEcho10k.content
    ∧ exPh2far.messageType = exEcho10k.messageType
    ∧ (exPh2far.timestamp - exEcho10k.timestamp).natAbs < 5000
    ∧ (handleReceiveMessage "me" exEcho10k [exPh1, exPh2far]).length = 3 := by
  decide

/-- C1 (amended): if no entry already carries the incoming identity and the
EARLIEST placeholder entry with matching content and type also has its
timestamp within 5000 ms of the incoming message's, then the merge replaces
that placeholder in place: same length, position preserved, identity set to
the incoming durable identity, deliveryStatus set to `sent`.  (If the
earliest match is out of the window, the message is appended instead, even
when a later placeholder is in the window.) -/
theorem receive_merge_earliest_placeholder (u : String) (msg : Message)
    (prev : List Message) (i : Nat) (P : Message)
    (hdup : prev.any (fun m => m.mid == msg.mid) = false)
    (hfrom : msg.fromUserId = u)
    (hfind : findIndex (candMatch msg) prev = some i)
    (hget : prev[i]? = some P)
    (hwin : (P.timestamp - msg.timestamp).natAbs < 5000) :
    handleReceiveMessage u msg prev = prev.set i (mergeEcho P msg)
    ∧ (handleReceiveMessage u msg prev).length = prev.length
    ∧ (handleReceiveMessage u msg prev)[i]? = some (mergeEcho P msg)
    ∧ (mergeEcho P msg).mid = msg.mid
    ∧ (mergeEcho P msg).status = some .sent := by
  have hi : i < prev.length := (List.getElem?_eq_some.mp hget).1
  have hmain : handleReceiveMessage u msg prev = prev.set i (mergeEcho P msg) := by
    unfold handleReceiveMessage
    rw [hdup, hfrom, hfind]
    simp [hget, hwin]
  refine ⟨hmain, ?_, ?_, rfl, rfl⟩
  · rw [hmain, List.length_set]
  · rw [hmain]
    simp [List.getElem?_set_self', hi]

/-- Witness for C1 (amended) on the spec's scenario: a text placeholder at
t = 0 confirmed by `exConf0`. -/
theorem receive_merge_earliest_placeholder_witness :
    handleReceiveMessage "me" exConf0 [exPh1]
      = [exPh1].set 0 (mergeEcho exPh1 exConf0)
    ∧ (handleReceiveMessage "me" exConf0 [exPh1]).length = 1
    ∧ (handleReceiveMessage "me" exConf0 [exPh1])[0]?
        = some (mergeEcho exPh1 exConf0)
    ∧ (mergeEcho exPh1 exConf0).mid = exConf0.mid
    ∧ (mergeEcho exPh1 exConf0).status = some .sent :=
  receive_merge_earliest_placeholder "me" exConf0 [exPh1] 0 exPh1
    (by decide) rfl (by decide) rfl (by decide)

/-- C2 counterexample: two identical unmatched placeholders, both within the
5000 ms window of one send-confirmation; `handleMessageSent` rewrites BOTH of
them to the confirmation's identity, so the single echo is applied to more
than one placeholder entry. -/
theorem sent_echo_double_apply_counterexample :
    (handleMessageSent "me" exConf0 [exPh1, exPh2near])[0]?
      = some (sentRewrite exConf0 exPh1)
    ∧ (handleMessageSent "me" exConf0 [exPh1, exPh2near])[1]?
      = some (sentRewrite exConf0 exPh2near)
    ∧ (sentRewrite exConf0 exPh1).mid = exConf0.mid
    ∧ (sentRewrite exConf0 exPh2near).mid = exConf0.mid := by
  decide

/-- C2 (amended): a receive-message echo consumes exactly the earliest
matching placeholder — the merge happens at the first index whose entry
passes the content/type/placeholder test (every earlier entry fails it), and
every other index is left unchanged.  A send-confirmation, by contrast,
rewrites EVERY entry matching its condition, so one confirmation can be
applied to several identical placeholders. -/
theorem echo_fifo_and_sent_rewrites_all (u : String) (msg data : Message)
    (prev : List Message) (i : Nat) (P : Message)
    (hdup : prev.any (fun m => m.mid == msg.mid) = false)
    (hfrom : msg.fromUserId = u)
    (hfind : findIndex (candMatch msg) prev = some i)
    (hget : prev[i]? = some P)
    (hwin : (P.timestamp - msg.timestamp).natAbs < 5000) :
    (handleReceiveMessage u msg prev)[i]? = some (mergeEcho P msg)
    ∧ (∀ j, j < i → ∀ x : Message, prev[j]? = some x → candMatch msg x = false)
    ∧ (∀ j : Nat, j ≠ i → (handleReceiveMessage u msg prev)[j]? = prev[j]?)
    ∧ (∀ (j : Nat) (m : Message), prev[j]? = some m → sentCond u data m = true →
        (handleMessageSent u data prev)[j]? = some (sentRewrite data m)) := by
  have hi : i < prev.length := (List.getElem?_eq_some.mp hget).1
  have hmain : handleReceiveMessage u msg prev = prev.set i (mergeEcho P msg) := by
    unfold handleReceiveMessage
    rw [hdup, hfrom, hfind]
    simp [hget, hwin]
  refine ⟨?_, findIndex_earliest _ prev i hfind, ?_, ?_⟩
  · rw [hmain]
    simp [List.getElem?_set_self', hi]
  · intro j hj
    rw [hmain]
    exact List.getElem?_set_ne (fun h => hj h.symm)
  · intro j m hg hc
    simp [handleMessageSent, List.getElem?_map, hg, hc]

/-- Witness for C2 on the double-placeholder log: the receive path merges at
index 0 and leaves index 1 untouched, while the sent path rewrites index 1
as well. -/
theorem echo_fifo_and_sent_rewrites_all_witness :
    (handleReceiveMessage "me" exConf0 [exPh1, exPh2near])[0]?
      = some (mergeEcho exPh1 exConf0)
    ∧ (handleReceiveMessage "me" exConf0 [exPh1, exPh2near])[1]? = some exPh2near
    ∧ (handleMessageSent "me" exConf0 [exPh1, exPh2near])[1]?
        = some (sentRewrite exConf0 exPh2near) := by
  have h := echo_fifo_and_sent_rewrites_all "me" exConf0 exConf0
    [exPh1, exPh2near] 0 exPh1 (by decide) rfl (by decide) rfl (by decide)
  exact ⟨h.1, h.2.2.1 1 (by decide), h.2.2.2 1 exPh2near rfl (by decide)⟩

/-- C5 counterexample: a locally-created text record is appended with
`deliveryStatus = sent`, not `sending`. -/
theorem send_status_counterexample :
    (sendMessage true "hi" "me" (some "peer") 0 "p1abcdefg" []).log
      = [textMessageData "me" "peer" "hi" 0 "p1abcdefg"]
    ∧ (textMessageData "me" "peer" "hi" 0 "p1abcdefg").status = some .sent
    ∧ (textMessageData "me" "peer" "hi" 0 "p1abcdefg").status ≠ some .sending := by
  decide

/-- C5 (amended): a locally-created text record is appended with a
placeholder identity and `deliveryStatus = sent` (not `sending`); a voice
record is appended with a placeholder identity and `sending`, and its entry
transitions to `sent` when the media upload succeeds — before any matcher
merge — or to `error` when the upload fails.  Durable identity is acquired
only through the matcher merge. -/
theorem optimistic_record_lifecycle (u peer inputText tempId blobRef url : String)
    (ts dur : Int) (prev : List Message)
    (hin : trimIsEmpty inputText = false) (htmp : tempId.length < 20) :
    (sendMessage true inputText u (some peer) ts tempId prev).log
      = prev ++ [textMessageData u peer inputText ts tempId]
    ∧ (textMessageData u peer inputText ts tempId).mid = some tempId
    ∧ idLen (textMessageData u peer inputText ts tempId).mid < 20
    ∧ (textMessageData u peer inputText ts tempId).status = some .sent
    ∧ handleVoiceRecorded u peer tempId blobRef dur ts prev
        = prev ++ [voiceOptimistic u peer tempId blobRef dur ts]
    ∧ (voiceOptimistic u peer tempId blobRef dur ts).mid = some tempId
    ∧ idLen (voiceOptimistic u peer tempId blobRef dur ts).mid < 20
    ∧ (voiceOptimistic u peer tempId blobRef dur ts).status = some .sending
    ∧ (∀ (j : Nat) (m : Message), prev[j]? = some m → m.mid = some tempId →
        ((voiceUploadFailure tempId prev)[j]?).map (fun x => x.status)
          = some (some .error))
    ∧ (∀ (j : Nat) (m : Message), prev[j]? = some m → m.mid = some tempId →
        ((voiceUploadSuccess (voiceOptimistic u peer tempId blobRef dur ts) url
            prev)[j]?).map (fun x => x.status) = some (some .sent)) := by
  refine ⟨by simp [sendMessage, hin], rfl, by simpa [textMessageData, idLen] using htmp,
    rfl, rfl, rfl, by simpa [voiceOptimistic, idLen] using htmp, rfl, ?_, ?_⟩ <;>
    intro j m hg hmid <;>
    simp [voiceUploadFailure, voiceUploadSuccess, List.getElem?_map, hg, hmid,
      voiceOptimistic]

/-- Witness for C5 on a concrete voice send and upload failure. -/
theorem optimistic_record_lifecycle_witness :
    (sendMessage true "hi" "me" (some "peer") 0 "p1abcdefg" []).log
      = [] ++ [textMessageData "me" "peer" "hi" 0 "p1abcdefg"]
    ∧ (voiceOptimistic "me" "peer" "p1abcdefg" "blob:1" 3 0).status = some .sending
    ∧ ((voiceUploadFailure "p1abcdefg"
        [voiceOptimistic "me" "peer" "p1abcdefg" "blob:1" 3 0])[0]?).map
          (fun x => x.status) = some (some .error) := by
  have h := optimistic_record_lifecycle "me" "peer" "hi" "p1abcdefg" "blob:1" "u"
    0 3 [voiceOptimistic "me" "peer" "p1abcdefg" "blob:1" 3 0] (by decide) (by decide)
  exact ⟨(optimistic_record_lifecycle "me" "peer" "hi" "p1abcdefg" "blob:1" "u" 0 3 []
      (by decide) (by decide)).1,
    h.2.2.2.2.2.2.2.1,
    h.2.2.2.2.2.2.2.2.1 0 (voiceOptimistic "me" "peer" "p1abcdefg" "blob:1" 3 0)
      rfl rfl⟩

/-- A durable-identity entry already deleted once by actor `"u"`. -/
def exDeleted : Message :=
  { mid := some "srv0123456789abcdef01234", fromUserId := "me", toUserId := "peer",
    content := "hi", messageType := .text, timestamp := 0,
    deletedBy := some [⟨"u", 0⟩] }

/-- C6 counterexample: the entry already carries a `deletedBy` element for
actor `"u"`, yet applying another delete event for `"u"` appends a second
element for the same actor. -/
theorem deletedBy_duplicate_actor_counterexample :
    ((exDeleted.deletedBy.getD []).countP (fun e => e.userId == "u")) = 1
    ∧ (((handleMessageDeleted "srv0123456789abcdef01234" "u" 1 [exDeleted])[0]?).map
        (fun m => (m.deletedBy.getD []).countP (fun e => e.userId == "u"))) = some 2 := by
  decide

/-- C6 (amended): `deletedBy` is append-only with exactly one new element per
applied delete event; neither the remote nor the local delete handler
deduplicates by actor, so a repeated delete for the same actor yields a
second element for that actor. -/
theorem deletedBy_append_per_event (messageId actor u : String) (t now : Int)
    (prev : List Message) (j : Nat) (m : Message)
    (hget : prev[j]? = some m) (hid : m.mid = some messageId)
    (hne : messageId.isEmpty = false) (hlong : ¬ messageId.length < 20) :
    (handleMessageDeleted messageId actor t prev)[j]?
      = some { m with deletedBy := some (m.deletedBy.getD [] ++ [⟨actor, t⟩]) }
    ∧ (handleDeleteMessage true messageId u now prev).log[j]?
      = some { m with deletedBy := some (m.deletedBy.getD [] ++ [⟨u, now⟩]) } := by
  constructor
  · simp [handleMessageDeleted, List.getElem?_map, hget, hid]
  · simp [handleDeleteMessage, hne, hlong, List.getElem?_map, hget, hid]

/-- Witness for C6: the duplicate-actor scenario, through both handlers. -/
theorem deletedBy_append_per_event_witness :
    (handleMessageDeleted "srv0123456789abcdef01234" "u" 1 [exDeleted])[0]?
      = some { exDeleted with deletedBy := some [⟨"u", 0⟩, ⟨"u", 1⟩] }
    ∧ (handleDeleteMessage true "srv0123456789abcdef01234" "u" 1 [exDeleted]).log[0]?
      = some { exDeleted with deletedBy := some [⟨"u", 0⟩, ⟨"u", 1⟩] } :=
  deletedBy_append_per_event "srv0123456789abcdef01234" "u" "u" 1 1
    [exDeleted] 0 exDeleted rfl rfl (by decide) (by decide)

/-- A recalled placeholder entry: same content/type as the echoes above, but
already marked `isRecalled = true`. -/
def exRecalledPh : Message :=
  { mid := some "p1abcdefg", fromUserId := "me", toUserId := "peer",
    content := "hi", messageType := .text, timestamp := 0, status := some .sent,
    isRecalled := some true }

/-- An incoming echo that explicitly carries `isRecalled: false`. -/
def exEchoRecFalse : Message :=
  { mid := some "srv0123456789abcdef01234", fromUserId := "me", toUserId := "peer",
    content := "hi", messageType := .text, timestamp := 100,
    isRecalled := some false }

/-- C8 counterexample: the entry at index 0 has `isRecalled = true`, yet a
subsequently processed receive-message event — whose optimistic merge spreads
the incoming message over the placeholder — resets it to `false`, because the
echo carries `isRecalled: false`. -/
theorem recall_overlay_counterexample :
    (([exRecalledPh] : List Message)[0]?).map (fun m => m.isRecalled)
      = some (some true)
    ∧ ((handleReceiveMessage "me" exEchoRecFalse [exRecalledPh])[0]?).map
        (fun m => m.isRecalled) = some (some false) := by
  decide

/-- C8 (amended): once an entry's `isRecalled` is `true`, it stays `true`
under send-confirmation, remote recall, remote delete, read-receipt, local
recall, local delete, and the voice-upload transitions; a receive-message
event also preserves it unless its optimistic merge overlays an incoming
message explicitly carrying `isRecalled = false` onto that (placeholder)
entry — that is, unless the duplicate-identity guard fails, the incoming
sender is the local user, the candidate search lands exactly on this entry,
this entry's timestamp is within the 5000 ms window, and the incoming
message carries `isRecalled = false`.  Every other receive-message event
(including ones carrying `isRecalled = false` that merge elsewhere, append,
or are rejected as duplicates) preserves the flag.  A recalled entry renders
as the placeholder notice, never as a content bubble. -/
theorem recall_terminal_preservation (u byUserId actor messageId rid did tmp
    url : String) (hasSocket : Bool) (activePeer : Option String) (t now : Int)
    (data opt : Message) (prev : List Message) (i : Nat) (m : Message)
    (hget : prev[i]? = some m) (hrec : m.isRecalled = some true) :
    messageBubbleRender m = .recalledNotice
    ∧ ((handleMessageSent u data prev)[i]?).map (fun x => x.isRecalled)
        = some (some true)
    ∧ ((handleMessageRecalled rid prev)[i]?).map (fun x => x.isRecalled)
        = some (some true)
    ∧ ((handleMessageDeleted did actor t prev)[i]?).map (fun x => x.isRecalled)
        = some (some true)
    ∧ ((handleMessagesRead u byUserId activePeer prev)[i]?).map
        (fun x => x.isRecalled) = some (some true)
    ∧ (((handleRecallMessage hasSocket messageId u activePeer prev).log)[i]?).map
        (fun x => x.isRecalled) = some (some true)
    ∧ (((handleDeleteMessage hasSocket messageId u now prev).log)[i]?).map
        (fun x => x.isRecalled) = some (some true)
    ∧ ((voiceUploadFailure tmp prev)[i]?).map (fun x => x.isRecalled)
        = some (some true)
    ∧ ((voiceUploadSuccess opt url prev)[i]?).map (fun x => x.isRecalled)
        = some (some true)
    ∧ (∀ msg : Message,
        ¬(prev.any (fun m2 => m2.mid == msg.mid) = false
          ∧ (msg.fromUserId == u) = true
          ∧ findIndex (candMatch msg) prev = some i
          ∧ (m.timestamp - msg.timestamp).natAbs < 5000
          ∧ msg.isRecalled = some false) →
        ((handleReceiveMessage u msg prev)[i]?).map (fun x => x.isRecalled)
          = some (some true)) := by
  have hi : i < prev.length := (List.getElem?_eq_some.mp hget).1
  refine ⟨by simp [messageBubbleRender, hrec], ?_, ?_, ?_, ?_, ?_, ?_, ?_, ?_, ?_⟩
  · simp only [handleMessageSent, List.getElem?_map, hget, Option.map_some']
    split <;> simp [sentRewrite, hrec]
  · simp only [handleMessageRecalled, List.getElem?_map, hget, Option.map_some']
    split <;> simp [hrec]
  · simp only [handleMessageDeleted, List.getElem?_map, hget, Option.map_some']
    split <;> simp [hrec]
  · unfold handleMessagesRead
    split
    · simp only [List.getElem?_map, hget, Option.map_some']
      split <;> simp [hrec]
    · simp [hget, hrec]
  · unfold handleRecallMessage
    split
    · simp [hget, hrec]
    · split
      · simp [hget, hrec]
      · simp only [List.getElem?_map, hget, Option.map_some']
        split <;> simp [hrec]
  · unfold handleDeleteMessage
    split
    · simp [hget, hrec]
    · split
      · simp [hget, hrec]
      · simp only [List.getElem?_map, hget, Option.map_some']
        split <;> simp [hrec]
  · simp only [voiceUploadFailure, List.getElem?_map, hget, Option.map_some']
    split <;> simp [hrec]
  · simp only [voiceUploadSuccess, List.getElem?_map, hget, Option.map_some']
    split <;> simp [hrec]
  · intro msg hexc
    by_cases hdup : prev.any (fun m2 => m2.mid == msg.mid) = true
    · rw [receive_of_any u msg prev hdup]
      simp [hget, hrec]
    · have hdupf : prev.any (fun m2 => m2.mid == msg.mid) = false := by
        simpa using hdup
      by_cases hfrom : (msg.fromUserId == u) = true
      · rcases hfind : findIndex (candMatch msg) prev with _ | i0
        · have hres : handleReceiveMessage u msg prev = prev ++ [msg] := by
            unfold handleReceiveMessage
            rw [hdupf, hfrom, hfind]
            simp
          rw [hres, List.getElem?_append_left hi, hget]
          simp [hrec]
        · rcases hget0 : prev[i0]? with _ | P
          · have hres : handleReceiveMessage u msg prev = prev ++ [msg] := by
              unfold handleReceiveMessage
              rw [hdupf, hfrom, hfind]
              simp [hget0]
            rw [hres, List.getElem?_append_left hi, hget]
            simp [hrec]
          · by_cases hwin : (P.timestamp - msg.timestamp).natAbs < 5000
            · have hres : handleReceiveMessage u msg prev
                  = prev.set i0 (mergeEcho P msg) := by
                unfold handleReceiveMessage
                rw [hdupf, hfrom, hfind]
                simp [hget0, hwin]
              by_cases hii : i = i0
              · subst hii
                rw [hget] at hget0
                injection hget0 with hPm
                subst hPm
                have hnf : msg.isRecalled ≠ some false := fun hf =>
                  hexc ⟨hdupf, hfrom, hfind, hwin, hf⟩
                rw [hres]
                rcases hmr : msg.isRecalled with _ | b
                · simp [List.getElem?_set_self', hget, mergeEcho, jsOverlay, hmr, hrec]
                · cases b
                  · exact absurd hmr hnf
                  · simp [List.getElem?_set_self', hget, mergeEcho, jsOverlay, hmr]
              · rw [hres, List.getElem?_set_ne (fun h => hii h.symm), hget]
                simp [hrec]
            · have hres : handleReceiveMessage u msg prev = prev ++ [msg] := by
                unfold handleReceiveMessage
                rw [hdupf, hfrom, hfind]
                simp [hget0, hwin]
              rw [hres, List.getElem?_append_left hi, hget]
              simp [hrec]
      · have hfromf : (msg.fromUserId == u) = false := by simpa using hfrom
        have hres : handleReceiveMessage u msg prev = prev ++ [msg] := by
          unfold handleReceiveMessage
          rw [hdupf, hfromf]
          simp
        rw [hres, List.getElem?_append_left hi, hget]
        simp [hrec]

/-- A recalled entry that already carries a durable (24-character) identity,
as produced by recalling a confirmed message. -/
def exRecalledSrv : Message :=
  { mid := some "srv9876543210fedcba98765", fromUserId := "me", toUserId := "peer",
    content := "hi", messageType := .text, timestamp := 0, status := some .sent,
    isRecalled := some true }

/-- Witness for C8 on a concrete recalled durable entry: the incoming echo
explicitly carries `isRecalled: false`, but its merge does not land on the
recalled entry (the entry's identity is durable, so the candidate search
fails and the echo is appended), and the flag is preserved. -/
theorem recall_terminal_preservation_witness :
    messageBubbleRender exRecalledSrv = RenderOutput.recalledNotice
    ∧ ((handleMessageSent "me" exConf0 [exRecalledSrv])[0]?).map
        (fun x => x.isRecalled) = some (some true)
    ∧ ((handleReceiveMessage "me" exEchoRecFalse [exRecalledSrv])[0]?).map
        (fun x => x.isRecalled) = some (some true) := by
  have h := recall_terminal_preservation "me" "peer" "u" "x" "r" "d" "t" "url"
    true none 0 0 exConf0 exConf0 [exRecalledSrv] 0 exRecalledSrv rfl rfl
  exact ⟨h.1, h.2.1, h.2.2.2.2.2.2.2.2.2 exEchoRecFalse (by decide)⟩

end ChatClient
